import Mathlib

/-!
Verification of the static-analysis engine of the `code_docs` repository.

The engine parses JavaScript/TypeScript source text with Babel (an external
collaborator, treated as a black box) and walks the resulting syntax tree.
We embed the tree shapes the engine inspects as an inductive `Node` type and
translate each analysis routine from its source file:

* `Core`            — `src/src/core/analysis.ts`
* `Part014`         — `src/unnamed/part_014` (multi-file dependency resolver)
* `Part015`         — `src/unnamed/part_015` (call-hierarchy resolver)
* `AnalysisService` — `src/src/services/analysisService.ts`
* `ElectronMain`    — `src/electron/main.ts`

Babel parse outcomes are supplied as `Option Node` inputs (`none` models a
`parser.parse` exception, which every source routine catches); exceptions are
thereby modelled as values, so each embedded routine is total.
-/

namespace CodeDocs

/-! ## JavaScript string primitives

The source manipulates paths and code snippets with JavaScript string
operations.  We model them over `String.data` so that every definition
reduces by `rfl`/`decide`. -/

/-- JavaScript `str.split(sep)` for a one-character separator, on char lists:
splitting always yields at least one (possibly empty) group. -/
def jsSplitChars (sep : Char) : List Char → List (List Char)
  | [] => [[]]
  | c :: rest =>
    match jsSplitChars sep rest with
    | [] => [[]]
    | g :: gs => if c = sep then [] :: g :: gs else (c :: g) :: gs

/-- JavaScript `str.split(sep)` for a one-character separator. -/
def jsSplit (sep : Char) (s : String) : List String :=
  (jsSplitChars sep s.data).map String.mk

/-- JavaScript `Array.prototype.join("/")`. -/
def jsJoinSlash : List String → String
  | [] => ""
  | [s] => s
  | s :: rest => s ++ "/" ++ jsJoinSlash rest

/-- JavaScript `str.slice(a, b)` for `0 ≤ a ≤ b` (the only way the engine
calls it: Babel spans satisfy this). -/
def jsSlice (s : String) (a b : Nat) : String :=
  String.mk ((s.data.drop a).take (b - a))

/-- JavaScript `str.startsWith(".")`. -/
def jsStartsWithDot (s : String) : Bool :=
  match s.data with
  | '.' :: _ => true
  | _ => false

/-- JavaScript `str.includes("/")`. -/
def jsIncludesSlash (s : String) : Bool :=
  s.data.contains '/'

/-- JavaScript truthiness of a `string | null` value: `null` and the empty
string are falsy.  The source tests `if (findings.target)` and
`if (!findings.target)` on such a value. -/
def strTruthy : Option String → Bool
  | none => false
  | some s => !s.data.isEmpty

/-! ## Syntax-tree embedding

Each Babel node kind the engine inspects becomes a `Kind` constructor; data
that a `t.isIdentifier(...)` test reads is carried as `Option String`
(`some name` = the slot holds an identifier named `name`, `none` = it holds
some other node shape).  `nStart`/`nEnd` model Babel's `node.start` and
`node.end` byte offsets, which the source guards with `!= null` checks.
`children` lists a node's children in Babel's traversal order. -/

/-- Shape of `node.callee` in a `CallExpression`, as far as the engine
discriminates it: a bare identifier, a member expression (whose property is
or is not an identifier), or anything else. -/
inductive Callee : Type where
  | ident (name : String)
  | member (propIdent : Option String)
  | otherCallee
  deriving DecidableEq, Repr

/-- Node kinds inspected by the engine.  `other` covers every remaining
Babel node kind (blocks, statements, programs, literals, ...), which the
analyses traverse through without inspecting. -/
inductive Kind : Type where
  | funcDecl (id : Option String)
  | funcExpr
  | arrowFunc
  | classMethod (keyIdent : Option String)
  | varDeclarator (idIdent : Option String)
  | objectProp (keyIdent : Option String)
  | callExpr (callee : Callee)
  | ifStmt
  | forStmt
  | whileStmt
  | doWhileStmt
  | switchCase
  | condExpr
  | logicalExpr (op : String)
  | importDecl (source : String)
  | other
  deriving DecidableEq, Repr

/-- A Babel syntax-tree node: a kind, optional start/end offsets, and the
children in traversal order. -/
inductive Node : Type where
  | mk (kind : Kind) (nStart nEnd : Option Nat) (children : List Node)

def Node.kind : Node → Kind
  | .mk k _ _ _ => k

def Node.nStart : Node → Option Nat
  | .mk _ s _ _ => s

def Node.nEnd : Node → Option Nat
  | .mk _ _ e _ => e

def Node.children : Node → List Node
  | .mk _ _ _ cs => cs

mutual
/-- Pre-order traversal (Babel's `enter` order) paired with each node's
ancestor chain, nearest ancestor first.  `path.parent` is the chain's head;
`path.findParent` searches the chain. -/
def preorder (anc : List Node) : Node → List (Node × List Node)
  | .mk k s e cs =>
    (Node.mk k s e cs, anc) :: preorderList (Node.mk k s e cs :: anc) cs

def preorderList (anc : List Node) : List Node → List (Node × List Node)
  | [] => []
  | c :: cs => preorder anc c ++ preorderList anc cs
end

/-- Babel `t.isFunction`: the node kinds the `Function` visitor fires on
(among the kinds the engine distinguishes). -/
def isFunctionNode (n : Node) : Bool :=
  match n.kind with
  | .funcDecl _ => true
  | .funcExpr => true
  | .arrowFunc => true
  | .classMethod _ => true
  | _ => false

def isFuncExprKind : Kind → Bool
  | .funcExpr => true
  | _ => false

def isArrowKind : Kind → Bool
  | .arrowFunc => true
  | _ => false

/-- `t.isVariableDeclarator(parent) && t.isIdentifier(parent.id)`:
returns the binding identifier when both hold. -/
def varDeclaratorId : Option Node → Option String
  | some (.mk (.varDeclarator id) _ _ _) => id
  | _ => none

/-- `t.isObjectProperty(parent) && t.isIdentifier(parent.key)`:
returns the key identifier when both hold. -/
def objectPropKey : Option Node → Option String
  | some (.mk (.objectProp k) _ _ _) => k
  | _ => none

/-- The names a call expression contributes: the source adds
`callee.property.name` for `x.y(...)` when the property is an identifier,
else `callee.name` for a bare identifier callee, else nothing. -/
def calleeName : Callee → Option String
  | .member (some p) => some p
  | .ident n => some n
  | _ => none

end CodeDocs

namespace CodeDocs.Core

/-! ### `src/src/core/analysis.ts` -/

/-- `getFunctionName` from `src/src/core/analysis.ts` (the identical copy in
`src/unnamed/part_015` is also this definition).  Case 4 accepts only a
`FunctionExpression` object-property value — not an arrow function. -/
def getFunctionName (n : Node) (parent : Option Node) : Option String :=
  match n.kind with
  | .funcDecl (some id) => some id
  | k =>
    if (isFuncExprKind k || isArrowKind k) && (varDeclaratorId parent).isSome then
      varDeclaratorId parent
    else
      match k with
      | .classMethod (some key) => some key
      | _ =>
        if isFuncExprKind k && (objectPropKey parent).isSome then
          objectPropKey parent
        else none

end CodeDocs.Core

namespace CodeDocs.Part014

/-! ### `src/unnamed/part_014` -/

/-- `getFunctionName` from `src/unnamed/part_014`.  Case 4 accepts a
`FunctionExpression` **or** an `ArrowFunctionExpression` object-property
value. -/
def getFunctionName (n : Node) (parent : Option Node) : Option String :=
  match n.kind with
  | .funcDecl (some id) => some id
  | k =>
    if (isFuncExprKind k || isArrowKind k) && (varDeclaratorId parent).isSome then
      varDeclaratorId parent
    else
      match k with
      | .classMethod (some key) => some key
      | _ =>
        if (isFuncExprKind k || isArrowKind k) && (objectPropKey parent).isSome then
          objectPropKey parent
        else none

end CodeDocs.Part014

namespace CodeDocs

/-- `path.traverse({ CallExpression })` run on a function node's subtree:
every call expression strictly below the node (nested functions included)
contributes its callee name. -/
def collectedCallNames (n : Node) : List String :=
  (preorderList [] n.children).filterMap fun pr =>
    match pr.1.kind with
    | .callExpr c => calleeName c
    | _ => none

/-- The complexity visitor shared by `src/src/core/analysis.ts`,
`src/unnamed/part_014` and `src/unnamed/part_015`: the weight a node kind
adds to the running count. -/
def complexityWeight : Kind → Nat
  | .ifStmt => 1
  | .forStmt => 1
  | .whileStmt => 1
  | .doWhileStmt => 1
  | .switchCase => 1
  | .condExpr => 1
  | .logicalExpr op => if op = "&&" || op = "||" then 1 else 0
  | _ => 0

/-- `calculateComplexity` from `src/src/core/analysis.ts` (identical copies
live in `src/unnamed/part_014` and `src/unnamed/part_015`).  The `ast`
argument is the Babel parse outcome; `none` models `parser.parse` throwing,
which the `catch` turns into the line-count fallback
`Math.max(1, Math.round(code.split("\n").length / 10))`; for a natural
number `n`, `Math.round(n / 10) = (n + 5) / 10` in truncated division. -/
def calculateComplexity (code : String) (ast : Option Node) : Nat :=
  match ast with
  | none => max 1 (((jsSplit '\n' code).length + 5) / 10)
  | some root =>
    (preorder [] root).foldl (fun c pr => c + complexityWeight pr.1.kind) 1

end CodeDocs

namespace CodeDocs.Core

/-- Result record of the single-file dependency analysis in
`src/src/core/analysis.ts` (`DependencyInfo` there has no `file` field). -/
structure DependencyInfo where
  name : String
  content : String
  deriving DecidableEq, Repr

structure DependencyAnalysisResult where
  target : Option String
  dependencies : List DependencyInfo
  deriving DecidableEq, Repr

/-- Pass 1 of `runDependencyAnalysis` in `src/src/core/analysis.ts`: the
`Function` visitor fires on every function-like node (there is **no**
`path.stop()` in this variant), and every node whose resolved name equals
the target overwrites `findings.target` (when its span is non-null) and
appends its called names. -/
def pass1 (code : String) (root : Node) (t : String) :
    Option String × List String :=
  (preorder [] root).foldl
    (fun st pr =>
      if isFunctionNode pr.1 && (getFunctionName pr.1 pr.2.head? == some t) then
        (match pr.1.nStart, pr.1.nEnd with
          | some a, some b => some (jsSlice code a b)
          | _, _ => st.1,
         st.2 ++ collectedCallNames pr.1)
      else st)
    (none, [])

/-- Pass 2 of `runDependencyAnalysis` in `src/src/core/analysis.ts`: a
function is emitted when its resolved name is in the called-name set and was
not emitted before.  Unlike `src/unnamed/part_014`, there is **no**
`funcName !== targetFuncName` guard here. -/
def pass2 (code : String) (root : Node) (called : List String) :
    List DependencyInfo :=
  (preorder [] root).foldl
    (fun deps pr =>
      if isFunctionNode pr.1 then
        match getFunctionName pr.1 pr.2.head? with
        | some fn =>
          if called.contains fn then
            if deps.any (fun d => d.name == fn) then deps
            else
              match pr.1.nStart, pr.1.nEnd with
              | some a, some b => deps ++ [⟨fn, jsSlice code a b⟩]
              | _, _ => deps
          else deps
        | none => deps
      else deps)
    []

/-- `runDependencyAnalysis` from `src/src/core/analysis.ts` (single-file
variant).  `ast = none` models `parser.parse` throwing, which the `catch`
turns into `null`; otherwise the function always returns `findings`, even
when the target was never found. -/
def runDependencyAnalysis (code : String) (ast : Option Node) (t : String) :
    Option DependencyAnalysisResult :=
  match ast with
  | none => none
  | some root =>
    let p1 := pass1 code root t
    let deps := if strTruthy p1.1 then pass2 code root p1.2 else []
    some { target := p1.1, dependencies := deps }

end CodeDocs.Core

namespace CodeDocs.Part014

/-- One input file of the multi-file resolver in `src/unnamed/part_014`,
together with its Babel parse outcome (`none`: `parser.parse` threw; the
source logs the error and stores `null`, and both passes skip the file). -/
structure SourceFile where
  name : String
  content : String
  ast : Option Node

/-- `DependencyInfo` from `src/unnamed/part_014`, which records the source
file's name. -/
structure DependencyInfo where
  name : String
  content : String
  file : String
  deriving DecidableEq, Repr

structure DependencyAnalysisResult where
  target : Option String
  dependencies : List DependencyInfo
  deriving DecidableEq, Repr

/-- The first function-like node, in pre-order, whose resolved name equals
the target: pass 1 of `src/unnamed/part_014` calls `path.stop()` at this
node, so no later node of the same file is inspected. -/
def firstMatch (t : String) (root : Node) : Option Node :=
  ((preorder [] root).find? fun pr =>
      isFunctionNode pr.1 && (getFunctionName pr.1 pr.2.head? == some t)).map
    (·.1)

/-- Pass-1 step for one file of `src/unnamed/part_014`: the first in-file
match (if any) overwrites `findings.target` (when its span is non-null) and
appends its called names to the shared set. -/
def pass1Step (t : String) (st : Option String × List String)
    (f : SourceFile) : Option String × List String :=
  match f.ast with
  | none => st
  | some root =>
    match firstMatch t root with
    | none => st
    | some n =>
      (match n.nStart, n.nEnd with
        | some a, some b => some (jsSlice f.content a b)
        | _, _ => st.1,
       st.2 ++ collectedCallNames n)

/-- Pass 1 of `src/unnamed/part_014`: `asts.forEach` visits **every** file,
whether or not a target was already found. -/
def pass1 (files : List SourceFile) (t : String) :
    Option String × List String :=
  files.foldl (pass1Step t) (none, [])

/-- Pass-2 step of `src/unnamed/part_014` for one traversed node: emit the
function when its name differs from the target, is in the called-name set,
and was not emitted before. -/
def pass2Step (t : String) (called : List String) (content fname : String)
    (deps : List DependencyInfo) (pr : Node × List Node) :
    List DependencyInfo :=
  if isFunctionNode pr.1 then
    match getFunctionName pr.1 pr.2.head? with
    | some fn =>
      if fn != t && called.contains fn then
        if deps.any (fun d => d.name == fn) then deps
        else
          match pr.1.nStart, pr.1.nEnd with
          | some a, some b => deps ++ [⟨fn, jsSlice content a b, fname⟩]
          | _, _ => deps
      else deps
    | none => deps
  else deps

/-- Pass 2 of `src/unnamed/part_014` over one file. -/
def pass2File (t : String) (called : List String)
    (deps : List DependencyInfo) (f : SourceFile) : List DependencyInfo :=
  match f.ast with
  | none => deps
  | some root => (preorder [] root).foldl (pass2Step t called f.content f.name) deps

/-- `runDependencyAnalysis` from `src/unnamed/part_014` (multi-file
variant).  After both passes the source executes
`if (!findings.target) return null; return findings;` — a falsy target
(never found, or an empty slice) yields `null`. -/
def runDependencyAnalysis (files : List SourceFile) (t : String) :
    Option DependencyAnalysisResult :=
  let p1 := pass1 files t
  let deps :=
    if strTruthy p1.1 then files.foldl (pass2File t p1.2) [] else []
  if strTruthy p1.1 then some { target := p1.1, dependencies := deps }
  else none

end CodeDocs.Part014

namespace CodeDocs.Part015

/-! ### `src/unnamed/part_015` -/

structure CallerInfo where
  name : String
  content : String
  deriving DecidableEq, Repr

structure CallHierarchyAnalysisResult where
  target : String
  callers : List CallerInfo
  deriving DecidableEq, Repr

/-- `path.findParent((p) => p.isFunction())` applied to a node's ancestor
chain (nearest first), paired with the found ancestor's own parent (needed
because `getFunctionName` inspects `path.parent`). -/
def findParentFunction : List Node → Option (Node × Option Node)
  | [] => none
  | a :: rest =>
    if isFunctionNode a then some (a, rest.head?) else findParentFunction rest

/-- One `CallExpression` visit of `runCallHierarchyAnalysis` in
`src/unnamed/part_015`: state is `(processedFuncs, callers)`.  The caller is
recorded only when the callee name equals the target, an enclosing function
exists, that function has a resolvable name not yet processed, and its span
is non-null (the span guard wraps both the push and the
`processedFuncs.add`).  `part_015`'s own `getFunctionName` is textually the
one embedded as `Core.getFunctionName`. -/
def chStep (code t : String) (st : List String × List CallerInfo)
    (pr : Node × List Node) : List String × List CallerInfo :=
  match pr.1.kind with
  | .callExpr c =>
    if calleeName c == some t then
      match findParentFunction pr.2 with
      | some (p, pp) =>
        match Core.getFunctionName p pp with
        | some cn =>
          if st.1.contains cn then st
          else
            match p.nStart, p.nEnd with
            | some a, some b => (st.1 ++ [cn], st.2 ++ [⟨cn, jsSlice code a b⟩])
            | _, _ => st
        | none => st
      | none => st
    else st
  | _ => st

/-- `runCallHierarchyAnalysis` from `src/unnamed/part_015` (lines 189-244).
`ast = none` models `parser.parse` throwing: the `catch` swallows the error
and the function still returns `{ target: targetFuncName, callers }` with
whatever was collected before the throw (nothing, since parsing comes
first). -/
def runCallHierarchyAnalysis (code : String) (ast : Option Node)
    (t : String) : CallHierarchyAnalysisResult :=
  match ast with
  | none => { target := t, callers := [] }
  | some root =>
    { target := t
      callers := ((preorder [] root).foldl (chStep code t) ([], [])).2 }

end CodeDocs.Part015

namespace CodeDocs.AnalysisService

/-! ### `src/src/services/analysisService.ts` -/

/-- `resolveVirtualPath` from `src/src/services/analysisService.ts`
(lines 209-238); `src/electron/main.ts` lines 89-119 contain the identical
function.  Non-relative specifiers resolve to `null`; otherwise `.`/`..`
segment resolution runs on slash-delimited keys and the fixed candidate
list — extension-less resolved path first, then each source extension, then
each index file — is probed against the manifest key set, first hit
winning. -/
def resolveVirtualPath (importerPath importPath : String)
    (allFilePaths : List String) : Option String :=
  if jsStartsWithDot importPath = false then none
  else
    let importerDir :=
      if jsIncludesSlash importerPath then
        jsJoinSlash ((jsSplit '/' importerPath).dropLast)
      else ""
    let combined :=
      if strTruthy (some importerDir) then importerDir ++ "/" ++ importPath
      else importPath
    let pathParts := jsSplit '/' combined
    let resolvedParts :=
      pathParts.foldl
        (fun acc part =>
          if part = "" || part = "." then acc
          else if part = ".." then acc.dropLast
          else acc ++ [part])
        []
    let resolvedPath := jsJoinSlash resolvedParts
    let exts := ["", ".ts", ".tsx", ".js", ".jsx",
                 "/index.ts", "/index.tsx", "/index.js", "/index.jsx"]
    exts.findSome? fun ext =>
      let fullPath := resolvedPath ++ ext
      if allFilePaths.contains fullPath then some fullPath else none

/-- One input file of the module-graph branch of `runWebAnalysis`
(`src/src/services/analysisService.ts` lines 134-204), with its Babel parse
outcome (`none`: `parser.parse` threw, so the `catch` skips the file and
`dependencyMap.set` is never reached for it). -/
structure VirtualFile where
  path : String
  ast : Option Node

/-- The `ImportDeclaration` visitor of the module-graph branch: every static
import's source specifier, in traversal order. -/
def extractImports (root : Node) : List String :=
  (preorder [] root).filterMap fun pr =>
    match pr.1.kind with
    | .importDecl src => some src
    | _ => none

/-- JavaScript `Map.prototype.set` on an insertion-ordered association
list: an existing key keeps its position and gets the new value, a new key
is appended. -/
def mapSet (m : List (String × List String)) (k : String)
    (v : List String) : List (String × List String) :=
  if m.any (fun e => e.1 == k) then
    m.map fun e => if e.1 == k then (k, v) else e
  else m ++ [(k, v)]

/-- JavaScript `dependencyMap.get(node) || []`. -/
def mapGet (m : List (String × List String)) (k : String) : List String :=
  match m.find? (fun e => e.1 == k) with
  | some e => e.2
  | none => []

/-- The resolved-dependency set of one file in the module-graph branch of
`runWebAnalysis`: each import specifier is resolved against the full key set
of the run, hits are inserted into the (insertion-ordered) `Set`. -/
def fileDeps (allFilePaths : List String) (fpath : String)
    (imports : List String) : List String :=
  imports.foldl
    (fun ds s =>
      match resolveVirtualPath fpath s allFilePaths with
      | some p => if ds.contains p then ds else ds ++ [p]
      | none => ds)
    []

/-- One file's contribution to the adjacency map: a file whose parse threw
contributes nothing (`dependencyMap.set` sits inside the `try`). -/
def buildStep (allFilePaths : List String)
    (m : List (String × List String)) (f : VirtualFile) :
    List (String × List String) :=
  match f.ast with
  | none => m
  | some root => mapSet m f.path (fileDeps allFilePaths f.path (extractImports root))

/-- The adjacency-map construction of the module-graph branch of
`runWebAnalysis`: per file, resolve every import specifier against the full
key set of the run and record the deduplicated resolved ids. -/
def buildDependencyMap (files : List VirtualFile) :
    List (String × List String) :=
  files.foldl (buildStep (files.map (·.path))) []

/-- Mutable state of the DFS in `findCircularDependencies`
(`src/src/services/analysisService.ts` lines 32-60; `src/electron/main.ts`
lines 122-150 contain the identical function): the accumulated cycles and
the shared `visited` set, `recursionStack` set and `path` array. -/
structure DfsState where
  cycles : List (List String)
  visited : List String
  recStack : List String
  path : List String
  deriving DecidableEq, Repr

/-- `detectCycle` of `findCircularDependencies`.  `fuel` is a termination
device only: every recursive call is made on a node that was unvisited and
is marked visited first, so recursion depth is bounded by the number of
distinct node names, and the caller passes more fuel than that bound. -/
def detectCycle (depMap : List (String × List String)) :
    Nat → String → DfsState → DfsState
  | 0, _, st => st
  | fuel + 1, node, st =>
    let st : DfsState :=
      { st with
        visited := if st.visited.contains node then st.visited
                   else st.visited ++ [node]
        recStack := if st.recStack.contains node then st.recStack
                    else st.recStack ++ [node]
        path := st.path ++ [node] }
    let st :=
      (mapGet depMap node).foldl
        (fun (st : DfsState) neighbor =>
          if st.visited.contains neighbor = false then
            detectCycle depMap fuel neighbor st
          else if st.recStack.contains neighbor then
            { st with
              cycles := st.cycles ++
                [(st.path.drop (st.path.indexOf neighbor)) ++ [neighbor]] }
          else st)
        st
    { st with path := st.path.dropLast, recStack := st.recStack.erase node }

/-- `findCircularDependencies` from `src/src/services/analysisService.ts`
(identical in `src/electron/main.ts`): DFS from every not-yet-visited key in
map order, each root call starting with a fresh, empty `path`. -/
def findCircularDependencies (depMap : List (String × List String)) :
    List (List String) :=
  let fuel :=
    depMap.length + depMap.foldl (fun a e => a + e.2.length) 0 + 1
  (depMap.foldl
      (fun (st : DfsState) (e : String × List String) =>
        if st.visited.contains e.1 then st
        else detectCycle depMap fuel e.1 { st with path := [] })
      { cycles := [], visited := [], recStack := [], path := [] }).cycles

end CodeDocs.AnalysisService

namespace CodeDocs.ElectronMain

/-! ### `src/electron/main.ts` -/

/-- `resolveImportPath` from `src/electron/main.ts` (lines 64-86,
filesystem mode).  Node's `path.dirname`/`path.resolve`/`path.join` and the
filesystem probe `fs.existsSync(file) && fs.statSync(file).isFile()` are
external collaborators, supplied as function arguments.  A non-relative
specifier resolves to `null` before any of them is consulted; otherwise the
fixed candidate list is probed in order and the first existing file wins. -/
def resolveImportPath (dirname : String → String)
    (resolve : String → String → String) (join : String → String → String)
    (existsFile : String → Bool) (importerPath importPath : String) :
    Option String :=
  if jsStartsWithDot importPath = false then none
  else
    let resolvedPath := resolve (dirname importerPath) importPath
    let filesToCheck :=
      resolvedPath ::
        ([".ts", ".tsx", ".js", ".jsx"].map fun ext => resolvedPath ++ ext) ++
        [join resolvedPath "index.ts", join resolvedPath "index.tsx",
         join resolvedPath "index.js", join resolvedPath "index.jsx"]
    filesToCheck.find? existsFile

end CodeDocs.ElectronMain

namespace CodeDocs

/-! ## Concrete fixtures

Babel parse trees of small concrete inputs, written down as the parser (an
external collaborator) produces them: pre-order child placement, byte-offset
spans.  Intermediate statement/block nodes are `Kind.other` — the analyses
only traverse through them. -/

/-- A call expression `name(...)` with a bare identifier callee. -/
def callN (name : String) : Node :=
  .mk (.callExpr (.ident name)) none none []

/-- An expression statement wrapping one expression. -/
def exprStmtN (c : Node) : Node :=
  .mk .other none none [c]

/-- A `Program` root node. -/
def programN (cs : List Node) : Node :=
  .mk .other none none cs

/-- A named function declaration spanning bytes `[a, b)` whose body block
holds the given statements. -/
def fnDeclN (name : String) (a b : Nat) (body : List Node) : Node :=
  .mk (.funcDecl (some name)) (some a) (some b) [.mk .other none none body]

/-- `function f(){ f(); }` — a self-recursive function (20 bytes). -/
def selfRecCode : String := "function f(){ f(); }"

def selfRecAst : Node := programN [fnDeclN "f" 0 20 [exprStmtN (callN "f")]]

/-- `function a(){}` — a single function, used for a not-found query. -/
def codeA : String := "function a(){}"

def astA : Node := programN [fnDeclN "a" 0 14 []]

/-- File one of the duplicate-target scenario:
`function t(){ a(); } function a(){}`. -/
def dupOneCode : String := "function t(){ a(); } function a(){}"

def dupOneAst : Node :=
  programN [fnDeclN "t" 0 20 [exprStmtN (callN "a")], fnDeclN "a" 21 35 []]

/-- File two of the duplicate-target scenario:
`function t(){ b(); } function b(){}`. -/
def dupTwoCode : String := "function t(){ b(); } function b(){}"

def dupTwoAst : Node :=
  programN [fnDeclN "t" 0 20 [exprStmtN (callN "b")], fnDeclN "b" 21 35 []]

def dupFiles : List Part014.SourceFile :=
  [⟨"one.ts", dupOneCode, some dupOneAst⟩,
   ⟨"two.ts", dupTwoCode, some dupTwoAst⟩]

/-- Mutual recursion plus a duplicate call and a top-level call:
`function A(){ B(); } function B(){ A(); A(); } A();`. -/
def mutualCode : String :=
  "function A(){ B(); } function B(){ A(); A(); } A();"

def mutualAst : Node :=
  programN
    [fnDeclN "A" 0 20 [exprStmtN (callN "B")],
     fnDeclN "B" 21 46 [exprStmtN (callN "A"), exprStmtN (callN "A")],
     exprStmtN (callN "A")]

/-- `function f(){ if(a){} else if(b){} }`: a function whose body is one
`IfStatement` whose alternate is a second `IfStatement`. -/
def elseIfCode : String := "function f(){ if(a){} else if(b){} }"

def elseIfAst : Node :=
  programN
    [Node.mk (.funcDecl (some "f")) (some 0) (some 36)
      [Node.mk .other none none
        [Node.mk .ifStmt none none
          [Node.mk .other none none [],
           Node.mk .ifStmt none none [Node.mk .other none none []]]]]]

/-- The manifest of the virtual-mode module-graph example: `a.ts` imports
the relative `./b` and the bare specifier `react`. -/
def vfiles : List AnalysisService.VirtualFile :=
  [⟨"a.ts", some (programN [Node.mk (.importDecl "./b") none none [],
                            Node.mk (.importDecl "react") none none []])⟩,
   ⟨"b.ts", some (programN [])⟩]

/-- The nodes a traversal of a parse outcome visits: none when the parse
threw, the pre-order enumeration of the tree otherwise. -/
def astNodes : Option Node → List (Node × List Node)
  | some root => preorder [] root
  | none => []

end CodeDocs

namespace CodeDocs.Part014

/-! ### Characterization helpers for pass 1 of `src/unnamed/part_014` -/

/-- The in-file first match of pass 1 for one file (skipping unparseable
files). -/
def fileFirstMatch (t : String) (f : SourceFile) : Option Node :=
  f.ast.bind (firstMatch t)

/-- The `findings.target` slice one file's pass-1 visit would write: its
first match's span slice, when the span is non-null. -/
def fileTargetSlice (t : String) (f : SourceFile) : Option String :=
  (fileFirstMatch t f).bind fun n =>
    match n.nStart, n.nEnd with
    | some a, some b => some (jsSlice f.content a b)
    | _, _ => none

/-- The last `findings.target` write over a file list: pass 1 visits every
file, so a later file's match overwrites an earlier one's. -/
def lastTargetSlice (t : String) : List SourceFile → Option String
  | [] => none
  | f :: rest =>
    match lastTargetSlice t rest with
    | some v => some v
    | none => fileTargetSlice t f

/-- The called names contributed by one file's first match. -/
def firstMatchCalls (t : String) (f : SourceFile) : List String :=
  match fileFirstMatch t f with
  | some n => collectedCallNames n
  | none => []

/-- The called-name set accumulated by pass 1: every file's first match
contributes, in file order. -/
def allCalledNames (t : String) : List SourceFile → List String
  | [] => []
  | f :: rest => firstMatchCalls t f ++ allCalledNames t rest

end CodeDocs.Part014

namespace CodeDocs

/-! ## Claim theorems -/

/-- C4, counterexample: the claim asserts that an arrow function used as an
object-literal property value resolves to the property key's name, citing
the resolver of `src/src/core/analysis.ts` as well; that variant's case 4
only accepts a `FunctionExpression`, so the arrow form resolves to `none`
instead of `some "myFunc"`. -/
theorem C4_counterexample :
    Core.getFunctionName (Node.mk .arrowFunc (some 0) (some 10) [])
      (some (Node.mk (.objectProp (some "myFunc")) none none [])) = none := by
  rfl

/-- C4 (amended): both resolver variants return the expected identifier for
a named declaration, a function or arrow expression initializing an
identifier-bound variable, a class method keyed by an identifier, and a
(non-arrow) function expression valued object-literal property, and return
`none` for an anonymous unbound function expression; an arrow function as
an object-literal property value resolves to the key's name in the
`src/unnamed/part_014` variant but to `none` in the
`src/src/core/analysis.ts` variant. -/
theorem C4_name_resolver_forms :
    (∀ id s e cs p,
      Part014.getFunctionName (Node.mk (.funcDecl (some id)) s e cs) p = some id) ∧
    (∀ id s e cs p,
      Core.getFunctionName (Node.mk (.funcDecl (some id)) s e cs) p = some id) ∧
    (∀ nm s e cs ps pe pcs,
      Part014.getFunctionName (Node.mk .arrowFunc s e cs)
        (some (Node.mk (.varDeclarator (some nm)) ps pe pcs)) = some nm) ∧
    (∀ nm s e cs ps pe pcs,
      Core.getFunctionName (Node.mk .funcExpr s e cs)
        (some (Node.mk (.varDeclarator (some nm)) ps pe pcs)) = some nm) ∧
    (∀ key s e cs p,
      Part014.getFunctionName (Node.mk (.classMethod (some key)) s e cs) p = some key) ∧
    (∀ key s e cs p,
      Core.getFunctionName (Node.mk (.classMethod (some key)) s e cs) p = some key) ∧
    (∀ key s e cs ps pe pcs,
      Part014.getFunctionName (Node.mk .funcExpr s e cs)
        (some (Node.mk (.objectProp (some key)) ps pe pcs)) = some key) ∧
    (∀ key s e cs ps pe pcs,
      Core.getFunctionName (Node.mk .funcExpr s e cs)
        (some (Node.mk (.objectProp (some key)) ps pe pcs)) = some key) ∧
    (∀ key s e cs ps pe pcs,
      Part014.getFunctionName (Node.mk .arrowFunc s e cs)
        (some (Node.mk (.objectProp (some key)) ps pe pcs)) = some key) ∧
    (∀ key s e cs ps pe pcs,
      Core.getFunctionName (Node.mk .arrowFunc s e cs)
        (some (Node.mk (.objectProp (some key)) ps pe pcs)) = none) ∧
    (∀ s e cs,
      Part014.getFunctionName (Node.mk .funcExpr s e cs) none = none) ∧
    (∀ s e cs,
      Core.getFunctionName (Node.mk .funcExpr s e cs) none = none) := by
  refine ⟨?_, ?_, ?_, ?_, ?_, ?_, ?_, ?_, ?_, ?_, ?_, ?_⟩ <;>
    intros <;> rfl

/-- C6: in virtual addressing mode, `"./util"` resolves to `util.ts` when
both `util.ts` and `util/index.ts` are manifest keys — whatever the manifest
order — because the candidate order is the extension-less resolved path,
then each source extension, then each index file, first member of the key
set winning. -/
theorem C6_virtual_resolution_priority :
    AnalysisService.resolveVirtualPath "main.ts" "./util"
        ["util.ts", "util/index.ts"] = some "util.ts" ∧
    AnalysisService.resolveVirtualPath "main.ts" "./util"
        ["util/index.ts", "util.ts"] = some "util.ts" ∧
    AnalysisService.resolveVirtualPath "main.ts" "./util"
        ["util", "util.ts", "util/index.ts"] = some "util" ∧
    AnalysisService.resolveVirtualPath "main.ts" "./util"
        ["util/index.ts"] = some "util/index.ts" ∧
    AnalysisService.resolveVirtualPath "src/main.ts" "./util"
        ["src/util.ts", "util.ts"] = some "src/util.ts" := by
  refine ⟨?_, ?_, ?_, ?_, ?_⟩ <;> decide

/-- C8: on the adjacency map `A -> B, B -> C, C -> A` the cycle detector
reports exactly one cycle — the recursion-stack slice from the back-edge
target's first occurrence through the current node, plus the closing repeat
of the start node: `[A, B, C, A]`. -/
theorem C8_cycle_detector_triangle :
    AnalysisService.findCircularDependencies
        [("A", ["B"]), ("B", ["C"]), ("C", ["A"])] = [["A", "B", "C", "A"]] := by
  decide

/-- C10: the call-hierarchy analysis always returns normally (the embedding
is a total function; the source's `catch` swallows the only possible
exception), its `target` field always equals the supplied target name, and
on parse failure the callers collected up to that point — none, since
parsing happens first — are still returned. -/
theorem C10_call_hierarchy_total :
    (∀ code ast t, (Part015.runCallHierarchyAnalysis code ast t).target = t) ∧
    (∀ code t, Part015.runCallHierarchyAnalysis code none t =
      { target := t, callers := [] }) := by
  constructor
  · intro code ast t
    cases ast <;> rfl
  · intro code t
    rfl

/-- Accumulating complexity weights with `foldl` from a starting value is
the starting value plus the sum of the weights. -/
theorem foldl_complexity_eq (l : List (Node × List Node)) (n : Nat) :
    l.foldl (fun c pr => c + complexityWeight pr.1.kind) n =
      n + (l.map fun pr => complexityWeight pr.1.kind).sum := by
  induction l generalizing n with
  | nil => simp
  | cons a l ih => simp [ih]; omega

/-- C9: on a successful parse the complexity estimator returns 1 plus the
number of weighted branch constructs (conditionals, loops, switch-case
arms, ternaries, `&&`/`||`) in the span; the `else if` example yields
exactly 3; on parse failure it returns the line-count fallback
`max(1, round(lineCount / 10))` instead of raising (the embedding is total),
and the result is always at least 1. -/
theorem C9_complexity_estimator :
    (∀ code root, calculateComplexity code (some root) =
      1 + ((preorder [] root).map fun pr => complexityWeight pr.1.kind).sum) ∧
    calculateComplexity elseIfCode (some elseIfAst) = 3 ∧
    (∀ code, calculateComplexity code none =
      max 1 (((jsSplit '\n' code).length + 5) / 10)) ∧
    (∀ code ast, 1 ≤ calculateComplexity code ast) := by
  have h1 : ∀ code root, calculateComplexity code (some root) =
      1 + ((preorder [] root).map fun pr => complexityWeight pr.1.kind).sum :=
    fun code root => foldl_complexity_eq (preorder [] root) 1
  refine ⟨h1, by decide, fun code => rfl, ?_⟩
  intro code ast
  cases ast with
  | none => exact le_max_left 1 _
  | some root => rw [h1]; omega

/-- Fold invariant: a property preserved by every step (for elements of
the list) holds of the fold's result. -/
theorem foldl_preserves {A B : Type} (P : A → Prop) :
    ∀ (l : List B) (f : A → B → A),
      (∀ a b, b ∈ l → P a → P (f a b)) → ∀ a, P a → P (l.foldl f a) := by
  intro l
  induction l with
  | nil => intro f _ a ha; exact ha
  | cons x xs ih =>
    intro f hstep a ha
    exact ih f (fun a' b hb h' => hstep a' b (List.mem_cons_of_mem x hb) h')
      (f a x) (hstep a x (List.mem_cons_self x xs) ha)

/-- The state invariant of the call-hierarchy visitor: recorded caller
names are pairwise distinct and all sit in the `processedFuncs` set, and
one `chStep` preserves this. -/
theorem chStep_preserves (code t : String)
    (st : List String × List Part015.CallerInfo) (pr : Node × List Node)
    (h : (st.2.map Part015.CallerInfo.name).Nodup ∧
      ∀ n ∈ st.2.map Part015.CallerInfo.name, st.1.contains n = true) :
    ((Part015.chStep code t st pr).2.map Part015.CallerInfo.name).Nodup ∧
      ∀ n ∈ (Part015.chStep code t st pr).2.map Part015.CallerInfo.name,
        (Part015.chStep code t st pr).1.contains n = true := by
  obtain ⟨hnd, hcl⟩ := h
  unfold Part015.chStep
  repeat' split
  all_goals try exact ⟨hnd, hcl⟩
  constructor
  · simp only [List.map_append, List.map_cons, List.map_nil]
    rw [List.nodup_append]
    refine ⟨hnd, List.nodup_singleton _, ?_⟩
    intro a ha hb'
    simp only [List.mem_singleton] at hb'
    subst hb'
    have := hcl _ ha
    simp_all
  · intro n hn
    simp only [List.map_append, List.map_cons, List.map_nil,
      List.mem_append, List.mem_singleton] at hn
    rcases hn with hn | hn
    · have := hcl _ hn
      simp_all
    · subst hn
      simp

/-- C5: for the file `function A(){ B(); } function B(){ A(); A(); } A();`
the call-hierarchy analysis for target `A` returns exactly the single
caller `B` carrying `B`'s full source span — even though `B` calls `A`
twice and a top-level `A()` call exists — and symmetrically for target `B`;
in general the recorded caller names are always pairwise distinct. -/
theorem C5_mutual_recursion_callers :
    Part015.runCallHierarchyAnalysis mutualCode (some mutualAst) "A" =
      { target := "A",
        callers := [⟨"B", "function B(){ A(); A(); }"⟩] } ∧
    Part015.runCallHierarchyAnalysis mutualCode (some mutualAst) "B" =
      { target := "B", callers := [⟨"A", "function A(){ B(); }"⟩] } ∧
    ∀ code ast t,
      ((Part015.runCallHierarchyAnalysis code ast t).callers.map
        Part015.CallerInfo.name).Nodup := by
  refine ⟨by decide, by decide, ?_⟩
  intro code ast t
  cases ast with
  | none => simp [Part015.runCallHierarchyAnalysis]
  | some root =>
    have h := foldl_preserves
      (fun (st : List String × List Part015.CallerInfo) =>
        (st.2.map Part015.CallerInfo.name).Nodup ∧
          ∀ n ∈ st.2.map Part015.CallerInfo.name, st.1.contains n = true)
      (preorder [] root) (Part015.chStep code t)
      (fun a b _ hb => chStep_preserves code t a b hb)
      ([], []) ⟨by simp, by simp⟩
    simpa [Part015.runCallHierarchyAnalysis] using h.1

/-- One pass-2 step of the multi-file resolver never pushes an entry whose
name equals the target (the `funcName !== targetFuncName` guard). -/
theorem pass2Step_no_self (t : String) (called : List String)
    (content fname : String) (deps : List Part014.DependencyInfo)
    (pr : Node × List Node)
    (h : deps.any (fun d => d.name == t) = false) :
    (Part014.pass2Step t called content fname deps pr).any
      (fun d => d.name == t) = false := by
  unfold Part014.pass2Step
  repeat' split
  all_goals try exact h
  rw [List.any_append, h]
  simp only [List.any_cons, List.any_nil, Bool.false_or, Bool.or_false]
  simp_all

/-- Pass 2 over one file preserves the no-self-dependency property. -/
theorem pass2File_no_self (t : String) (called : List String)
    (deps : List Part014.DependencyInfo) (f : Part014.SourceFile)
    (h : deps.any (fun d => d.name == t) = false) :
    (Part014.pass2File t called deps f).any (fun d => d.name == t) = false := by
  unfold Part014.pass2File
  split
  · exact h
  · exact foldl_preserves (fun ds => ds.any (fun d => d.name == t) = false)
      _ _ (fun a b _ hb => pass2Step_no_self t called _ _ a b hb) deps h

/-- C1 (amended): the multi-file resolver of `src/unnamed/part_014` never
lists the target's own name among the dependencies, even when the target
calls itself recursively; the single-file variant of
`src/src/core/analysis.ts` lacks the corresponding guard and does not have
this property (see its counterexample). -/
theorem C1_multi_file_excludes_target :
    ∀ (files : List Part014.SourceFile) (t : String)
      (r : Part014.DependencyAnalysisResult),
      Part014.runDependencyAnalysis files t = some r →
      r.dependencies.any (fun d => d.name == t) = false := by
  intro files t r h
  unfold Part014.runDependencyAnalysis at h
  by_cases hc : strTruthy (Part014.pass1 files t).1 = true
  · rw [if_pos hc] at h
    rw [Option.some.injEq] at h
    subst h
    dsimp only
    rw [if_pos hc]
    exact foldl_preserves
      (fun ds => ds.any (fun d => d.name == t) = false) files _
      (fun a b _ hb => pass2File_no_self t _ a b hb) [] rfl
  · rw [if_neg hc] at h
    exact absurd h (by simp)

/-- C1 witness: instantiating the no-self-dependency theorem on the
single file `function f(){ f(); }` with target `f`. -/
theorem C1_multi_file_excludes_target_witness :
    (Part014.DependencyAnalysisResult.mk (some "function f(){ f(); }")
      []).dependencies.any (fun d => d.name == "f") = false :=
  C1_multi_file_excludes_target [⟨"a.ts", selfRecCode, some selfRecAst⟩] "f"
    ⟨some "function f(){ f(); }", []⟩ (by decide)

/-- C1, counterexample: the claim also covers the single-file variant
(`src/src/core/analysis.ts`), whose pass 2 has no
`funcName !== targetFuncName` guard: on `function f(){ f(); }` with target
`f`, the dependency list contains the entry named `f` itself. -/
theorem C1_counterexample :
    Core.runDependencyAnalysis selfRecCode (some selfRecAst) "f" =
      some { target := some "function f(){ f(); }",
             dependencies := [⟨"f", "function f(){ f(); }"⟩] } := by
  decide

/-- If no traversed function-like node of a tree resolves to the target
name, the first-match search of pass 1 finds nothing. -/
theorem firstMatch_eq_none (t : String) (root : Node)
    (h : ∀ pr ∈ preorder [] root,
      isFunctionNode pr.1 = false ∨
        Part014.getFunctionName pr.1 pr.2.head? ≠ some t) :
    Part014.firstMatch t root = none := by
  unfold Part014.firstMatch
  have hf : (preorder [] root).find?
      (fun pr => isFunctionNode pr.1 &&
        (Part014.getFunctionName pr.1 pr.2.head? == some t)) = none := by
    rw [List.find?_eq_none]
    intro x hx
    rcases h x hx with h' | h'
    · simp [h']
    · simp [h']
  rw [hf]
  rfl

/-- C2 (amended): when no function resolving to the target name exists in
any parseable file, the multi-file resolver of `src/unnamed/part_014`
returns `null` — the same value its single-file sibling reserves for
catastrophic parse failure — not a normal result with a `none` target. -/
theorem C2_not_found_returns_null :
    ∀ (files : List Part014.SourceFile) (t : String),
      (∀ f ∈ files, ∀ pr ∈ astNodes f.ast,
        isFunctionNode pr.1 = false ∨
          Part014.getFunctionName pr.1 pr.2.head? ≠ some t) →
      Part014.runDependencyAnalysis files t = none := by
  intro files t h
  have hp1 : Part014.pass1 files t = (none, []) := by
    unfold Part014.pass1
    refine foldl_preserves (fun st => st = (none, [])) files _ ?_ _ rfl
    intro st f hf hst
    subst hst
    unfold Part014.pass1Step
    cases hast : f.ast with
    | none => rfl
    | some root =>
      have hagree : astNodes f.ast = preorder [] root := by rw [hast]; rfl
      have hfm : Part014.firstMatch t root = none :=
        firstMatch_eq_none t root
          (fun pr hpr => h f hf pr (hagree ▸ hpr))
      simp [hfm]
  unfold Part014.runDependencyAnalysis
  rw [hp1]
  rfl

/-- C2 witness: the no-match hypothesis holds vacuously for the empty file
list, and the resolver indeed returns `null`. -/
theorem C2_not_found_returns_null_witness :
    Part014.runDependencyAnalysis [] "zzz" = none :=
  C2_not_found_returns_null [] "zzz" (by simp)

/-- C2, counterexample: the file `function a(){}` parses fine and contains
no function named `zzz`, yet the resolver returns `null` — the claimed
normal `target = none` result distinguishable from failure is never
produced. -/
theorem C2_counterexample :
    Part014.runDependencyAnalysis [⟨"a.ts", codeA, some astA⟩] "zzz" =
      none := by
  decide

/-- One pass-1 step of the multi-file resolver, in closed form: the file's
first-match slice (when any) overwrites the running target, and the file's
first-match calls are appended. -/
theorem pass1Step_eq (t : String) (st : Option String × List String)
    (f : Part014.SourceFile) :
    Part014.pass1Step t st f =
      ((match Part014.fileTargetSlice t f with
        | some v => some v
        | none => st.1),
       st.2 ++ Part014.firstMatchCalls t f) := by
  unfold Part014.pass1Step
  cases hast : f.ast with
  | none =>
    simp [Part014.fileTargetSlice, Part014.firstMatchCalls,
      Part014.fileFirstMatch, hast]
  | some root =>
    cases hm : Part014.firstMatch t root with
    | none =>
      simp [Part014.fileTargetSlice, Part014.firstMatchCalls,
        Part014.fileFirstMatch, hast, hm]
    | some n =>
      cases hs : n.nStart with
      | none =>
        cases he : n.nEnd <;>
          simp [Part014.fileTargetSlice, Part014.firstMatchCalls,
            Part014.fileFirstMatch, hast, hm, hs, he]
      | some a =>
        cases he : n.nEnd <;>
          simp [Part014.fileTargetSlice, Part014.firstMatchCalls,
            Part014.fileFirstMatch, hast, hm, hs, he]

/-- Pass 1 over a file list, in closed form: the resulting target is the
last file's first-match slice (falling back to the initial value), and the
called names are the concatenation of every file's first-match calls. -/
theorem pass1_eq (t : String) :
    ∀ (files : List Part014.SourceFile) (init : Option String × List String),
      files.foldl (Part014.pass1Step t) init =
        ((match Part014.lastTargetSlice t files with
          | some v => some v
          | none => init.1),
         init.2 ++ Part014.allCalledNames t files) := by
  intro files
  induction files with
  | nil => intro init; simp [Part014.lastTargetSlice, Part014.allCalledNames]
  | cons f rest ih =>
    intro init
    rw [List.foldl_cons, pass1Step_eq, ih]
    show _ =
      ((match Part014.lastTargetSlice t (f :: rest) with
        | some v => some v
        | none => init.1),
       init.2 ++ Part014.allCalledNames t (f :: rest))
    rw [show Part014.lastTargetSlice t (f :: rest) =
        (match Part014.lastTargetSlice t rest with
         | some v => some v
         | none => Part014.fileTargetSlice t f) from rfl,
      show Part014.allCalledNames t (f :: rest) =
        Part014.firstMatchCalls t f ++ Part014.allCalledNames t rest from rfl]
    cases hr : Part014.lastTargetSlice t rest with
    | some v => simp [hr, List.append_assoc]
    | none => cases hfx : Part014.fileTargetSlice t f <;>
        simp [hr, hfx, List.append_assoc]

/-- C3 (amended): within each file pass 1 stops at the first matching
function (`path.stop()`), but `asts.forEach` still searches every later
file: the reported target slice is the **last** file's first match
(overwriting earlier ones), and the called-name set is the union of every
file's first-match calls — later same-named functions do contribute. -/
theorem C3_target_is_last_files_match :
    ∀ (files : List Part014.SourceFile) (t : String),
      (Part014.pass1 files t).1 = Part014.lastTargetSlice t files ∧
      (Part014.pass1 files t).2 = Part014.allCalledNames t files ∧
      ∀ r, Part014.runDependencyAnalysis files t = some r →
        r.target = Part014.lastTargetSlice t files := by
  intro files t
  have h := pass1_eq t files (none, [])
  have h1 : (Part014.pass1 files t).1 = Part014.lastTargetSlice t files := by
    unfold Part014.pass1
    rw [h]
    cases hx : Part014.lastTargetSlice t files <;> simp
  refine ⟨h1, ?_, ?_⟩
  · unfold Part014.pass1
    rw [h]
    simp
  · intro r hr
    unfold Part014.runDependencyAnalysis at hr
    by_cases hc : strTruthy (Part014.pass1 files t).1 = true
    · rw [if_pos hc, Option.some.injEq] at hr
      subst hr
      exact h1
    · rw [if_neg hc] at hr
      exact absurd hr (by simp)

/-- C3 witness: the characterization applied to the two-file
duplicate-target fixture. -/
theorem C3_target_is_last_files_match_witness :
    (Part014.DependencyAnalysisResult.mk (some "function t(){ b(); }")
        [⟨"a", "function a(){}", "one.ts"⟩,
         ⟨"b", "function b(){}", "two.ts"⟩]).target =
      Part014.lastTargetSlice "t" dupFiles :=
  (C3_target_is_last_files_match dupFiles "t").2.2
    ⟨some "function t(){ b(); }",
     [⟨"a", "function a(){}", "one.ts"⟩, ⟨"b", "function b(){}", "two.ts"⟩]⟩
    (by decide)

/-- C3, counterexample: two files both define `function t`.  The claim says
the first encountered one is the sole target and later same-named functions
contribute nothing, so the target span should be file one's `t` and the
dependency list only `a`; in fact the returned target span is file **two**'s
`t` and `b` (called only by file two's `t`) is also listed. -/
theorem C3_counterexample :
    Part014.runDependencyAnalysis dupFiles "t" =
      some { target := some "function t(){ b(); }",
             dependencies := [⟨"a", "function a(){}", "one.ts"⟩,
                              ⟨"b", "function b(){}", "two.ts"⟩] } := by
  decide

/-- A membership-guarded candidate probe that answers `some p` places `p`
in the probed set. -/
theorem probe_mem {paths : List String} {x p : String}
    (h : (if paths.contains x = true then some x else none) = some p) :
    p ∈ paths := by
  split at h
  · rename_i hc
    rw [Option.some.injEq] at h
    subst h
    simpa using hc
  · cases h

/-- Every path the virtual resolver returns is a member of the manifest key
set (the candidate probe is a membership test). -/
theorem resolveVirtualPath_mem (importer spec : String) (paths : List String)
    (p : String)
    (h : AnalysisService.resolveVirtualPath importer spec paths = some p) :
    p ∈ paths := by
  unfold AnalysisService.resolveVirtualPath at h
  by_cases hd : jsStartsWithDot spec = false
  · rw [if_pos hd] at h
    cases h
  · rw [if_neg hd] at h
    obtain ⟨ext, hmem, heval⟩ := List.exists_of_findSome?_eq_some h
    dsimp only at heval
    exact probe_mem heval

/-- `Map.set` semantics: an entry of the updated map is an old entry or the
newly written pair. -/
theorem mapSet_mem (m : List (String × List String)) (k : String)
    (v : List String) (pr : String × List String)
    (h : pr ∈ AnalysisService.mapSet m k v) : pr ∈ m ∨ pr = (k, v) := by
  unfold AnalysisService.mapSet at h
  split at h
  · obtain ⟨e, he, heq⟩ := List.mem_map.mp h
    by_cases hk : (e.1 == k) = true
    · rw [if_pos hk] at heq
      exact Or.inr heq.symm
    · rw [if_neg hk] at heq
      exact Or.inl (heq ▸ he)
  · rcases List.mem_append.mp h with h' | h'
    · exact Or.inl h'
    · exact Or.inr (by simpa using h')

/-- Every resolved dependency of one file is a member of the run's key
set. -/
theorem fileDeps_mem (allPaths : List String) (fpath : String)
    (imports : List String) :
    ∀ d ∈ AnalysisService.fileDeps allPaths fpath imports, d ∈ allPaths := by
  unfold AnalysisService.fileDeps
  refine foldl_preserves (fun ds => ∀ d ∈ ds, d ∈ allPaths) imports _ ?_ []
    (by simp)
  intro ds s _ hds
  cases hr : AnalysisService.resolveVirtualPath fpath s allPaths with
  | none => simpa [hr] using hds
  | some p =>
    simp only [hr]
    split
    · exact hds
    · intro d hd
      rcases List.mem_append.mp hd with h' | h'
      · exact hds d h'
      · simp only [List.mem_singleton] at h'
        subst h'
        exact resolveVirtualPath_mem fpath s allPaths d hr

/-- One `buildStep` preserves the edge-scoping invariant. -/
theorem buildStep_mem (allPaths : List String)
    (m : List (String × List String)) (f : AnalysisService.VirtualFile)
    (hm : ∀ pr ∈ m, ∀ d ∈ pr.2, d ∈ allPaths) :
    ∀ pr ∈ AnalysisService.buildStep allPaths m f,
      ∀ d ∈ pr.2, d ∈ allPaths := by
  unfold AnalysisService.buildStep
  cases hast : f.ast with
  | none => exact hm
  | some root =>
    intro pr hpr
    rcases mapSet_mem _ _ _ _ hpr with h' | h'
    · exact hm pr h'
    · subst h'
      intro d hd
      exact fileDeps_mem allPaths f.path (AnalysisService.extractImports root)
        d hd

/-- C7: a specifier that does not begin with `.` is never resolved, in
either addressing mode, and so contributes no edge; every edge recorded in
the adjacency map points to a member of the run's known file-id set
(virtual mode), and every path the filesystem resolver returns passed the
existence probe. -/
theorem C7_bare_imports_never_resolved :
    (∀ (importer spec : String) (paths : List String),
      jsStartsWithDot spec = false →
      AnalysisService.resolveVirtualPath importer spec paths = none) ∧
    (∀ (dn : String → String) (rs jn : String → String → String)
      (ex : String → Bool) (importer spec : String),
      jsStartsWithDot spec = false →
      ElectronMain.resolveImportPath dn rs jn ex importer spec = none) ∧
    (∀ (importer spec : String) (paths : List String) (p : String),
      AnalysisService.resolveVirtualPath importer spec paths = some p →
      p ∈ paths) ∧
    (∀ (dn : String → String) (rs jn : String → String → String)
      (ex : String → Bool) (importer spec p : String),
      ElectronMain.resolveImportPath dn rs jn ex importer spec = some p →
      ex p = true) ∧
    (∀ (files : List AnalysisService.VirtualFile),
      ∀ e ∈ AnalysisService.buildDependencyMap files,
      ∀ d ∈ e.2, d ∈ files.map AnalysisService.VirtualFile.path) := by
  refine ⟨?_, ?_, resolveVirtualPath_mem, ?_, ?_⟩
  · intro importer spec paths hd
    unfold AnalysisService.resolveVirtualPath
    rw [if_pos hd]
  · intro dn rs jn ex importer spec hd
    unfold ElectronMain.resolveImportPath
    rw [if_pos hd]
  · intro dn rs jn ex importer spec p h
    unfold ElectronMain.resolveImportPath at h
    by_cases hd : jsStartsWithDot spec = false
    · rw [if_pos hd] at h
      cases h
    · rw [if_neg hd] at h
      exact List.find?_some h
  · intro files
    exact foldl_preserves
      (fun m => ∀ pr ∈ m, ∀ d ∈ pr.2,
        d ∈ files.map AnalysisService.VirtualFile.path)
      files (AnalysisService.buildStep (files.map (·.path)))
      (fun m f _ hm => buildStep_mem _ m f hm) [] (by simp)

/-- C7 witness: the bare specifier `react` resolves to nothing; `./b`
resolves into the manifest; the only edge of the two-file example points to
a known file id. -/
theorem C7_bare_imports_never_resolved_witness :
    AnalysisService.resolveVirtualPath "a.ts" "react" ["b.ts"] = none ∧
    "b.ts" ∈ ["b.ts", "a.ts"] ∧
    "b.ts" ∈ vfiles.map AnalysisService.VirtualFile.path :=
  ⟨C7_bare_imports_never_resolved.1 "a.ts" "react" ["b.ts"] (by decide),
   C7_bare_imports_never_resolved.2.2.1 "a.ts" "./b" ["b.ts", "a.ts"] "b.ts"
     (by decide),
   C7_bare_imports_never_resolved.2.2.2.2 vfiles ("a.ts", ["b.ts"])
     (by decide) "b.ts" (by decide)⟩
